import Mathlib

/-!
Shallow embedding of `src/contracts/VotingContract.sol` (Solidity 0.8.28).

Modelling conventions:
* addresses are `Nat` (opaque comparable identities; `0` plays the role of
  `address(0)`, the default value of an unset `address` storage slot);
* `block.timestamp` is a `Nat` supplied to each operation as `now`;
* `mapping(uint => VotingSession)` is a total function `Nat → VotingSession`
  whose default value is the all-zero session, exactly as in EVM storage;
* `mapping(address => bool) hasVoted` is the list of addresses set to `true`
  (the code only ever inserts an address after checking it is absent);
* a reverting call is `Except.error e` carrying the error kind of the failing
  `require`, named after the specification's error taxonomy; a successful call
  returns the post-state.  Reverts roll back, so an errored call contributes
  no state change.
* `uint256` arithmetic is modelled on `Nat`: the only arithmetic the contract
  performs is `++` on counters that checked arithmetic would only stop at
  `2^256`, far beyond any reachable value, so no modular reduction is needed.
-/

namespace VotingDapp

/-- Error kinds of the contract, one per `require` site, named after the
specification's error taxonomy. -/
inductive VError where
  | notFound
  | unauthorized
  | invalidTimeRange
  | sessionEnded
  | sessionStillActive
  | votingAlreadyOpen
  | votingNotActive
  | alreadyVoted
  | invalidCandidate
  | noCandidates
deriving DecidableEq

/-- `struct Candidate { string name; uint voteCount; }` -/
structure Candidate where
  name : String
  voteCount : Nat
deriving DecidableEq

/-- `struct VotingSession` with its storage fields.  The
`mapping(address => bool) hasVoted` member is kept as the list of addresses
that have been set to `true`. -/
structure VotingSession where
  id : Nat
  title : String
  startTime : Nat
  endTime : Nat
  candidates : List Candidate
  hasVoted : List Nat
  isActive : Bool
  creator : Nat
deriving DecidableEq

/-- The default value of a `VotingSession` storage slot: every field zeroed,
as the EVM initialises untouched storage. -/
def defaultSession : VotingSession :=
  { id := 0, title := "", startTime := 0, endTime := 0, candidates := [],
    hasVoted := [], isActive := false, creator := 0 }

/-- Contract storage: the `Ownable` owner, `sessionCount`, and the
`votingSessions` mapping. -/
structure ContractState where
  owner : Nat
  sessionCount : Nat
  votingSessions : Nat → VotingSession

/-- State after the constructor runs with deployer `d` (`Ownable(msg.sender)`;
both storage variables zero-initialised). -/
def initialState (d : Nat) : ContractState :=
  { owner := d, sessionCount := 0, votingSessions := fun _ => defaultSession }

/-- Write one slot of the `votingSessions` mapping. -/
def ContractState.setSession (st : ContractState) (i : Nat) (s : VotingSession) :
    ContractState :=
  { st with votingSessions := fun k => if k = i then s else st.votingSessions k }

/-- `createVotingSession(title, startTime, endTime)`, guarded by `onlyOwner`
then `require(endTime > startTime)`.  As in the source, the slot's
`candidates` array and `hasVoted` mapping are left as they were (only the
scalar fields are assigned) and `sessionCount` is incremented afterwards. -/
def createVotingSession (caller : Nat) (title : String) (startTime endTime : Nat)
    (st : ContractState) : Except VError ContractState :=
  if caller ≠ st.owner then .error .unauthorized
  else if ¬ endTime > startTime then .error .invalidTimeRange
  else .ok
    { owner := st.owner, sessionCount := st.sessionCount + 1,
      votingSessions := fun k =>
        if k = st.sessionCount then
          { id := st.sessionCount, title := title, startTime := startTime,
            endTime := endTime,
            candidates := (st.votingSessions st.sessionCount).candidates,
            hasVoted := (st.votingSessions st.sessionCount).hasVoted,
            isActive := true, creator := caller }
        else st.votingSessions k }

/-- `addCandidate(sessionId, name)`: modifiers `sessionExists` (the source
checks `votingSessions[sessionId].id == sessionId`) and `onlySessionCreator`,
then `require(isActive)` and `require(now < startTime)`, then pushes
`Candidate(name, 0)`. -/
def addCandidate (caller sessionId : Nat) (name : String) (now : Nat)
    (st : ContractState) : Except VError ContractState :=
  if (st.votingSessions sessionId).id ≠ sessionId then .error .notFound
  else if caller ≠ (st.votingSessions sessionId).creator then .error .unauthorized
  else if ¬ (st.votingSessions sessionId).isActive then .error .sessionEnded
  else if ¬ now < (st.votingSessions sessionId).startTime then .error .votingAlreadyOpen
  else .ok (st.setSession sessionId
    { st.votingSessions sessionId with
      candidates := (st.votingSessions sessionId).candidates ++ [⟨name, 0⟩] })

/-- Increment `voteCount` of the candidate at index `i`
(`session.candidates[candidateId].voteCount++`). -/
def incAt : List Candidate → Nat → List Candidate
  | [], _ => []
  | c :: cs, 0 => { c with voteCount := c.voteCount + 1 } :: cs
  | c :: cs, n + 1 => c :: incAt cs n

/-- `vote(sessionId, candidateId)`: modifiers run in source order —
`nonReentrant` (no observable effect in this serialized model),
`onlyDuringVotingPeriod` (the time-window check, which reads the slot BEFORE
existence is checked), then `sessionExists`; then the `hasVoted` and
`candidateId` requires; on success records the voter and bumps the tally. -/
def vote (caller sessionId candidateId now : Nat) (st : ContractState) :
    Except VError ContractState :=
  if ¬ ((st.votingSessions sessionId).startTime ≤ now ∧
        now ≤ (st.votingSessions sessionId).endTime) then .error .votingNotActive
  else if (st.votingSessions sessionId).id ≠ sessionId then .error .notFound
  else if caller ∈ (st.votingSessions sessionId).hasVoted then .error .alreadyVoted
  else if ¬ candidateId < (st.votingSessions sessionId).candidates.length then
    .error .invalidCandidate
  else .ok (st.setSession sessionId
    { st.votingSessions sessionId with
      hasVoted := caller :: (st.votingSessions sessionId).hasVoted,
      candidates := incAt (st.votingSessions sessionId).candidates candidateId })

/-- `archiveSession(sessionId)`: `sessionExists`, then
`require(now > endTime)`, then `isActive = false`. -/
def archiveSession (_caller sessionId now : Nat) (st : ContractState) :
    Except VError ContractState :=
  if (st.votingSessions sessionId).id ≠ sessionId then .error .notFound
  else if ¬ now > (st.votingSessions sessionId).endTime then .error .sessionStillActive
  else .ok (st.setSession sessionId
    { st.votingSessions sessionId with isActive := false })

/-- `getCandidates(sessionId)` (view). -/
def getCandidates (sessionId : Nat) (st : ContractState) :
    Except VError (List Candidate) :=
  if (st.votingSessions sessionId).id ≠ sessionId then .error .notFound
  else .ok (st.votingSessions sessionId).candidates

/-- One step of the `getWinner` scan, on the running
(winnerName, maxVotes, tieCount) accumulator. -/
def winnerStep (acc : String × Nat × Nat) (c : Candidate) : String × Nat × Nat :=
  if c.voteCount > acc.2.1 then (c.name, c.voteCount, 1)
  else if c.voteCount = acc.2.1 then (acc.1, acc.2.1, acc.2.2 + 1)
  else acc

/-- The `getWinner` loop: left-to-right over the candidate list starting from
`winnerName = ""` (the default of the named return variable), `maxVotes = 0`,
`tieCount = 0`. -/
def winnerScan (cs : List Candidate) : String × Nat × Nat :=
  cs.foldl winnerStep ("", 0, 0)

/-- `getWinner(sessionId)` (view): `sessionExists`, `require(length > 0)`,
the scan, then `(\x22\x22, true)` if `tieCount > 1` else `(winnerName, false)`. -/
def getWinner (sessionId : Nat) (st : ContractState) :
    Except VError (String × Bool) :=
  if (st.votingSessions sessionId).id ≠ sessionId then .error .notFound
  else if ¬ (st.votingSessions sessionId).candidates.length > 0 then .error .noCandidates
  else if (winnerScan (st.votingSessions sessionId).candidates).2.2 > 1 then .ok ("", true)
  else .ok ((winnerScan (st.votingSessions sessionId).candidates).1, false)

/-- `hasUserVoted(sessionId, user)` (view). -/
def hasUserVoted (sessionId user : Nat) (st : ContractState) :
    Except VError Bool :=
  if (st.votingSessions sessionId).id ≠ sessionId then .error .notFound
  else .ok (decide (user ∈ (st.votingSessions sessionId).hasVoted))

/-- `getSessionCreator(sessionId)` (view). -/
def getSessionCreator (sessionId : Nat) (st : ContractState) :
    Except VError Nat :=
  if (st.votingSessions sessionId).id ≠ sessionId then .error .notFound
  else .ok (st.votingSessions sessionId).creator

/-- One call of the contract's mutating surface (the views do not change
state and are settled directly). -/
inductive Op where
  | createVotingSession (caller : Nat) (title : String) (startTime endTime : Nat)
  | addCandidate (caller sessionId : Nat) (name : String) (now : Nat)
  | vote (caller sessionId candidateId now : Nat)
  | archiveSession (caller sessionId now : Nat)

/-- Dispatch one call. -/
def exec : Op → ContractState → Except VError ContractState
  | .createVotingSession caller title s e, st => createVotingSession caller title s e st
  | .addCandidate caller sid name now, st => addCandidate caller sid name now st
  | .vote caller sid cid now, st => vote caller sid cid now st
  | .archiveSession caller sid now, st => archiveSession caller sid now st

/-- Run one call; a revert leaves the pre-state untouched. -/
def runStep (st : ContractState) (op : Op) : ContractState :=
  match exec op st with
  | .ok st' => st'
  | .error _ => st

/-- Run a sequence of calls from a state. -/
def run : List Op → ContractState → ContractState
  | [], st => st
  | op :: ops, st => run ops (runStep st op)

/-- States reachable from deployment by some sequence of calls. -/
def Reachable (st : ContractState) : Prop :=
  ∃ d ops, st = run ops (initialState d)

/-- Sum of the `voteCount` fields of a candidate list. -/
def sumVotes (cs : List Candidate) : Nat :=
  (cs.map Candidate.voteCount).sum

@[simp]
theorem setSession_sessions (st : ContractState) (i : Nat) (s : VotingSession) (k : Nat) :
    (st.setSession i s).votingSessions k = if k = i then s else st.votingSessions k :=
  rfl

@[simp]
theorem setSession_count (st : ContractState) (i : Nat) (s : VotingSession) :
    (st.setSession i s).sessionCount = st.sessionCount :=
  rfl

theorem sumVotes_append_zero (cs : List Candidate) (nm : String) :
    sumVotes (cs ++ [⟨nm, 0⟩]) = sumVotes cs := by
  simp [sumVotes]

theorem sumVotes_incAt (cs : List Candidate) (i : Nat) (h : i < cs.length) :
    sumVotes (incAt cs i) = sumVotes cs + 1 := by
  induction cs generalizing i with
  | nil => simp at h
  | cons c cs ih =>
    cases i with
    | zero =>
      simp only [incAt, sumVotes, List.map_cons, List.sum_cons]
      omega
    | succ n =>
      have h' : n < cs.length := by
        simpa using h
      simp only [incAt, sumVotes, List.map_cons, List.sum_cons]
      have := ih n h'
      simp only [sumVotes] at this
      omega

@[simp]
theorem incAt_length (cs : List Candidate) (i : Nat) :
    (incAt cs i).length = cs.length := by
  induction cs generalizing i with
  | nil => simp [incAt]
  | cons c cs ih =>
    cases i with
    | zero => simp [incAt]
    | succ n => simp [incAt, ih]

/-- State invariant maintained by every call:
1. slots at or beyond `sessionCount` are untouched default storage;
2. a created slot stores its own index as `id`;
3. in every slot the voter list is duplicate-free and the tallies sum to its
   length. -/
def Inv (st : ContractState) : Prop :=
  (∀ sid, st.sessionCount ≤ sid → st.votingSessions sid = defaultSession) ∧
  (∀ sid, sid < st.sessionCount → (st.votingSessions sid).id = sid) ∧
  (∀ sid, (st.votingSessions sid).hasVoted.Nodup ∧
    sumVotes (st.votingSessions sid).candidates =
      (st.votingSessions sid).hasVoted.length)

theorem inv_initialState (d : Nat) : Inv (initialState d) :=
  ⟨fun _ _ => rfl, fun _ h => absurd h (Nat.not_lt_zero _),
   fun _ => ⟨List.nodup_nil, rfl⟩⟩

theorem inv_createVotingSession (st st' : ContractState) (caller : Nat)
    (title : String) (a b : Nat) (h : Inv st)
    (hok : createVotingSession caller title a b st = .ok st') : Inv st' := by
  obtain ⟨h1, h2, h3⟩ := h
  unfold createVotingSession at hok
  split at hok
  · exact Except.noConfusion hok
  split at hok
  · exact Except.noConfusion hok
  injection hok with hok
  subst hok
  refine ⟨?_, ?_, ?_⟩ <;> intro sid
  · intro hsid
    dsimp only at hsid ⊢
    rw [if_neg (by omega : ¬ sid = st.sessionCount)]
    exact h1 sid (by omega)
  · intro hsid
    dsimp only at hsid ⊢
    by_cases hc : sid = st.sessionCount
    · rw [if_pos hc]
      dsimp only
      omega
    · rw [if_neg hc]
      exact h2 sid (by omega)
  · dsimp only
    by_cases hc : sid = st.sessionCount
    · rw [if_pos hc]
      exact h3 st.sessionCount
    · rw [if_neg hc]
      exact h3 sid

theorem inv_addCandidate (st st' : ContractState) (caller sid0 : Nat)
    (name : String) (now : Nat) (h : Inv st)
    (hok : addCandidate caller sid0 name now st = .ok st') : Inv st' := by
  obtain ⟨h1, h2, h3⟩ := h
  unfold addCandidate at hok
  split at hok
  · exact Except.noConfusion hok
  split at hok
  · exact Except.noConfusion hok
  split at hok
  · exact Except.noConfusion hok
  split at hok
  · exact Except.noConfusion hok
  rename_i hid hcr hact hnow
  have hid' : (st.votingSessions sid0).id = sid0 := not_not.mp hid
  have hact' : (st.votingSessions sid0).isActive = true := not_not.mp hact
  injection hok with hok
  subst hok
  have hlt : sid0 < st.sessionCount := by
    by_contra hge
    have hdef := h1 sid0 (by omega)
    rw [hdef] at hact'
    simp [defaultSession] at hact'
  refine ⟨?_, ?_, ?_⟩ <;> intro sid
  · intro hsid
    dsimp only [ContractState.setSession] at hsid ⊢
    rw [if_neg (by omega : ¬ sid = sid0)]
    exact h1 sid hsid
  · intro hsid
    dsimp only [ContractState.setSession] at hsid ⊢
    by_cases hc : sid = sid0
    · rw [if_pos hc]
      dsimp only
      rw [hc]
      exact hid'
    · rw [if_neg hc]
      exact h2 sid hsid
  · dsimp only [ContractState.setSession]
    by_cases hc : sid = sid0
    · rw [if_pos hc]
      refine ⟨(h3 sid0).1, ?_⟩
      dsimp only
      rw [sumVotes_append_zero]
      exact (h3 sid0).2
    · rw [if_neg hc]
      exact h3 sid

theorem inv_vote (st st' : ContractState) (caller sid0 cid now : Nat)
    (h : Inv st) (hok : vote caller sid0 cid now st = .ok st') : Inv st' := by
  obtain ⟨h1, h2, h3⟩ := h
  unfold vote at hok
  split at hok
  · exact Except.noConfusion hok
  split at hok
  · exact Except.noConfusion hok
  split at hok
  · exact Except.noConfusion hok
  split at hok
  · exact Except.noConfusion hok
  rename_i hwin hid hnv hcid
  have hid' : (st.votingSessions sid0).id = sid0 := not_not.mp hid
  have hcid' : cid < (st.votingSessions sid0).candidates.length := not_not.mp hcid
  injection hok with hok
  subst hok
  have hlt : sid0 < st.sessionCount := by
    by_contra hge
    have hdef := h1 sid0 (by omega)
    rw [hdef] at hcid'
    simp [defaultSession] at hcid'
  refine ⟨?_, ?_, ?_⟩ <;> intro sid
  · intro hsid
    dsimp only [ContractState.setSession] at hsid ⊢
    rw [if_neg (by omega : ¬ sid = sid0)]
    exact h1 sid hsid
  · intro hsid
    dsimp only [ContractState.setSession] at hsid ⊢
    by_cases hc : sid = sid0
    · rw [if_pos hc]
      dsimp only
      rw [hc]
      exact hid'
    · rw [if_neg hc]
      exact h2 sid hsid
  · dsimp only [ContractState.setSession]
    by_cases hc : sid = sid0
    · rw [if_pos hc]
      refine ⟨List.nodup_cons.mpr ⟨hnv, (h3 sid0).1⟩, ?_⟩
      dsimp only
      rw [sumVotes_incAt _ _ hcid', List.length_cons, (h3 sid0).2]
    · rw [if_neg hc]
      exact h3 sid

theorem inv_archiveSession (st st' : ContractState) (caller sid0 now : Nat)
    (h : Inv st) (hok : archiveSession caller sid0 now st = .ok st') : Inv st' := by
  obtain ⟨h1, h2, h3⟩ := h
  unfold archiveSession at hok
  split at hok
  · exact Except.noConfusion hok
  split at hok
  · exact Except.noConfusion hok
  rename_i hid hend
  have hid' : (st.votingSessions sid0).id = sid0 := not_not.mp hid
  injection hok with hok
  subst hok
  refine ⟨?_, ?_, ?_⟩ <;> intro sid
  · intro hsid
    dsimp only [ContractState.setSession] at hsid ⊢
    by_cases hc : sid = sid0
    · rw [if_pos hc]
      have hdef := h1 sid0 (by omega)
      rw [hdef]
      rfl
    · rw [if_neg hc]
      exact h1 sid hsid
  · intro hsid
    dsimp only [ContractState.setSession] at hsid ⊢
    by_cases hc : sid = sid0
    · rw [if_pos hc]
      dsimp only
      rw [hc]
      exact hid'
    · rw [if_neg hc]
      exact h2 sid hsid
  · dsimp only [ContractState.setSession]
    by_cases hc : sid = sid0
    · rw [if_pos hc]
      exact h3 sid0
    · rw [if_neg hc]
      exact h3 sid

theorem inv_runStep (st : ContractState) (op : Op) (h : Inv st) :
    Inv (runStep st op) := by
  unfold runStep
  cases hE : exec op st with
  | error e => exact h
  | ok st' =>
    cases op with
    | createVotingSession caller title a b =>
      exact inv_createVotingSession st st' caller title a b h hE
    | addCandidate caller sid name now =>
      exact inv_addCandidate st st' caller sid name now h hE
    | vote caller sid cid now =>
      exact inv_vote st st' caller sid cid now h hE
    | archiveSession caller sid now =>
      exact inv_archiveSession st st' caller sid now h hE

theorem inv_run (ops : List Op) (st : ContractState) (h : Inv st) :
    Inv (run ops st) := by
  induction ops generalizing st with
  | nil => exact h
  | cons op ops ih => exact ih (runStep st op) (inv_runStep st op h)

theorem reachable_inv (st : ContractState) (h : Reachable st) : Inv st := by
  obtain ⟨d, ops, rfl⟩ := h
  exact inv_run ops (initialState d) (inv_initialState d)

theorem run_append (l1 l2 : List Op) (st : ContractState) :
    run (l1 ++ l2) st = run l2 (run l1 st) := by
  induction l1 generalizing st with
  | nil => rfl
  | cons op l1 ih => exact ih (runStep st op)

theorem keepsVoter_create (st st' : ContractState) (caller : Nat) (title : String)
    (a b sid c : Nat) (hE : createVotingSession caller title a b st = .ok st')
    (hid : (st.votingSessions sid).id = sid)
    (hc : c ∈ (st.votingSessions sid).hasVoted) :
    (st'.votingSessions sid).id = sid ∧ c ∈ (st'.votingSessions sid).hasVoted := by
  unfold createVotingSession at hE
  split at hE
  · exact Except.noConfusion hE
  split at hE
  · exact Except.noConfusion hE
  injection hE with hE
  subst hE
  dsimp only
  by_cases hk : sid = st.sessionCount
  · rw [if_pos hk]
    refine ⟨by dsimp only; omega, ?_⟩
    dsimp only
    rw [← hk]
    exact hc
  · rw [if_neg hk]
    exact ⟨hid, hc⟩

theorem keepsVoter_addCandidate (st st' : ContractState) (caller sid0 : Nat)
    (name : String) (now sid c : Nat)
    (hE : addCandidate caller sid0 name now st = .ok st')
    (hid : (st.votingSessions sid).id = sid)
    (hc : c ∈ (st.votingSessions sid).hasVoted) :
    (st'.votingSessions sid).id = sid ∧ c ∈ (st'.votingSessions sid).hasVoted := by
  unfold addCandidate at hE
  split at hE
  · exact Except.noConfusion hE
  split at hE
  · exact Except.noConfusion hE
  split at hE
  · exact Except.noConfusion hE
  split at hE
  · exact Except.noConfusion hE
  injection hE with hE
  subst hE
  dsimp only [ContractState.setSession]
  by_cases hk : sid = sid0
  · rw [if_pos hk]
    refine ⟨?_, ?_⟩ <;> dsimp only <;> rw [← hk]
    · exact hid
    · exact hc
  · rw [if_neg hk]
    exact ⟨hid, hc⟩

theorem keepsVoter_vote (st st' : ContractState) (caller sid0 cid now sid c : Nat)
    (hE : vote caller sid0 cid now st = .ok st')
    (hid : (st.votingSessions sid).id = sid)
    (hc : c ∈ (st.votingSessions sid).hasVoted) :
    (st'.votingSessions sid).id = sid ∧ c ∈ (st'.votingSessions sid).hasVoted := by
  unfold vote at hE
  split at hE
  · exact Except.noConfusion hE
  split at hE
  · exact Except.noConfusion hE
  split at hE
  · exact Except.noConfusion hE
  split at hE
  · exact Except.noConfusion hE
  injection hE with hE
  subst hE
  dsimp only [ContractState.setSession]
  by_cases hk : sid = sid0
  · rw [if_pos hk]
    refine ⟨?_, ?_⟩ <;> dsimp only
    · rw [← hk]
      exact hid
    · rw [← hk]
      exact List.mem_cons_of_mem caller hc
  · rw [if_neg hk]
    exact ⟨hid, hc⟩

theorem keepsVoter_archive (st st' : ContractState) (caller sid0 now sid c : Nat)
    (hE : archiveSession caller sid0 now st = .ok st')
    (hid : (st.votingSessions sid).id = sid)
    (hc : c ∈ (st.votingSessions sid).hasVoted) :
    (st'.votingSessions sid).id = sid ∧ c ∈ (st'.votingSessions sid).hasVoted := by
  unfold archiveSession at hE
  split at hE
  · exact Except.noConfusion hE
  split at hE
  · exact Except.noConfusion hE
  injection hE with hE
  subst hE
  dsimp only [ContractState.setSession]
  by_cases hk : sid = sid0
  · rw [if_pos hk]
    refine ⟨?_, ?_⟩ <;> dsimp only <;> rw [← hk]
    · exact hid
    · exact hc
  · rw [if_neg hk]
    exact ⟨hid, hc⟩

/-- Once a slot stores its own index as `id` and an identity is in its voter
list, both facts survive any single call. -/
theorem runStep_keepsVoter (st : ContractState) (op : Op) (sid c : Nat)
    (hid : (st.votingSessions sid).id = sid)
    (hc : c ∈ (st.votingSessions sid).hasVoted) :
    ((runStep st op).votingSessions sid).id = sid ∧
    c ∈ ((runStep st op).votingSessions sid).hasVoted := by
  unfold runStep
  cases hE : exec op st with
  | error e => exact ⟨hid, hc⟩
  | ok st' =>
    cases op with
    | createVotingSession caller title a b =>
      exact keepsVoter_create st st' caller title a b sid c hE hid hc
    | addCandidate caller sid0 name now =>
      exact keepsVoter_addCandidate st st' caller sid0 name now sid c hE hid hc
    | vote caller sid0 cid now =>
      exact keepsVoter_vote st st' caller sid0 cid now sid c hE hid hc
    | archiveSession caller sid0 now =>
      exact keepsVoter_archive st st' caller sid0 now sid c hE hid hc

theorem run_keepsVoter (ops : List Op) (st : ContractState) (sid c : Nat)
    (hid : (st.votingSessions sid).id = sid)
    (hc : c ∈ (st.votingSessions sid).hasVoted) :
    ((run ops st).votingSessions sid).id = sid ∧
    c ∈ ((run ops st).votingSessions sid).hasVoted := by
  induction ops generalizing st with
  | nil => exact ⟨hid, hc⟩
  | cons op ops ih =>
    obtain ⟨hid', hc'⟩ := runStep_keepsVoter st op sid c hid hc
    exact ih (runStep st op) hid' hc'

/-- Concrete call sequences and states used by the witnesses below:
deployer and session creator is identity `0`, one session with window
`[10, 20]` and candidate "A"; `opsC` additionally has identity `1` vote for
"A" at time 15; `opsD` instead archives the session at time 21. -/
def opsA : List Op := [Op.createVotingSession 0 "T" 10 20]

def opsB : List Op := opsA ++ [Op.addCandidate 0 0 "A" 5]

def opsC : List Op := opsB ++ [Op.vote 1 0 0 15]

def opsD : List Op := opsB ++ [Op.archiveSession 9 0 21]

def stA : ContractState := run opsA (initialState 0)

def stB : ContractState := run opsB (initialState 0)

def stC : ContractState := run opsC (initialState 0)

def stD : ContractState := run opsD (initialState 0)

/-- A richer scenario: two candidates, "A" with 5 votes and "B" with 3. -/
def opsE : List Op :=
  [Op.createVotingSession 0 "T" 10 20,
   Op.addCandidate 0 0 "A" 5, Op.addCandidate 0 0 "B" 5,
   Op.vote 1 0 0 15, Op.vote 2 0 0 15, Op.vote 3 0 0 15,
   Op.vote 4 0 0 15, Op.vote 5 0 0 15,
   Op.vote 6 0 1 15, Op.vote 7 0 1 15, Op.vote 8 0 1 15]

def stE : ContractState := run opsE (initialState 0)

/-- Claim C1 (code bug evaluation): the specification says a session exists
iff its id is below `sessionCount`, and that every sessionId-taking operation
fails with NotFound otherwise; but the source's `sessionExists` modifier
checks `votingSessions[sessionId].id == sessionId`, which the never-created
default slot 0 satisfies.  On the freshly deployed contract
(`sessionCount = 0`), `getSessionCreator(0)` returns the zero address,
`hasUserVoted(0, u)` returns false, and `archiveSession(0)` at any time > 0
succeeds — none of them fails with NotFound. -/
theorem C1_session_zero_phantom :
    (initialState 0).sessionCount = 0 ∧
    getSessionCreator 0 (initialState 0) = .ok 0 ∧
    hasUserVoted 0 7 (initialState 0) = .ok false ∧
    (∃ st', archiveSession 5 0 1 (initialState 0) = .ok st') :=
  ⟨rfl, rfl, rfl, ⟨runStep (initialState 0) (Op.archiveSession 5 0 1), rfl⟩⟩

/-- Claim C2: after every sequence of operations, for every existing session
the sum of the `voteCount` fields over its candidate list equals the
cardinality of its voter set. -/
theorem C2_sum_voteCounts_eq_voters_card (st : ContractState) (h : Reachable st)
    (sid : Nat) (_hex : sid < st.sessionCount) :
    sumVotes (st.votingSessions sid).candidates =
      ((st.votingSessions sid).hasVoted).toFinset.card := by
  obtain ⟨-, -, h3⟩ := reachable_inv st h
  obtain ⟨hnd, hsum⟩ := h3 sid
  rw [List.toFinset_card_of_nodup hnd]
  exact hsum

/-- Witness for C2 at a concrete reachable state: one session, one candidate,
one vote. -/
theorem C2_sum_voteCounts_eq_voters_card_witness :
    0 < stC.sessionCount ∧
    sumVotes (stC.votingSessions 0).candidates =
      ((stC.votingSessions 0).hasVoted).toFinset.card :=
  ⟨by decide,
   C2_sum_voteCounts_eq_voters_card stC ⟨0, opsC, rfl⟩ 0 (by decide)⟩

/-- Claim C3: for every existing session, `getWinner` returns `(A, false)` on
counts `[5, 3]` (A the first candidate's name), `("", true)` on `[3, 3]`, on
`[2, 2, 2]` and on `[0, 0]`, `(name, false)` for a single candidate with a
positive count, and fails with NoCandidates on an empty roster. -/
theorem C3_getWinner_scenarios (st : ContractState) (h : Reachable st)
    (sid : Nat) (hex : sid < st.sessionCount) :
    (∀ a b : String, (st.votingSessions sid).candidates = [⟨a, 5⟩, ⟨b, 3⟩] →
        getWinner sid st = .ok (a, false)) ∧
    (∀ a b : String, (st.votingSessions sid).candidates = [⟨a, 3⟩, ⟨b, 3⟩] →
        getWinner sid st = .ok ("", true)) ∧
    (∀ a b c : String,
        (st.votingSessions sid).candidates = [⟨a, 2⟩, ⟨b, 2⟩, ⟨c, 2⟩] →
        getWinner sid st = .ok ("", true)) ∧
    (∀ a b : String, (st.votingSessions sid).candidates = [⟨a, 0⟩, ⟨b, 0⟩] →
        getWinner sid st = .ok ("", true)) ∧
    (∀ a : String, ∀ k : Nat, 0 < k →
        (st.votingSessions sid).candidates = [⟨a, k⟩] →
        getWinner sid st = .ok (a, false)) ∧
    ((st.votingSessions sid).candidates = [] →
        getWinner sid st = .error .noCandidates) := by
  obtain ⟨-, h2, -⟩ := reachable_inv st h
  have hid := h2 sid hex
  refine ⟨?_, ?_, ?_, ?_, ?_, ?_⟩
  · intro a b hcs
    simp [getWinner, hid, hcs, winnerScan, winnerStep]
  · intro a b hcs
    simp [getWinner, hid, hcs, winnerScan, winnerStep]
  · intro a b c hcs
    simp [getWinner, hid, hcs, winnerScan, winnerStep]
  · intro a b hcs
    simp [getWinner, hid, hcs, winnerScan, winnerStep]
  · intro a k hk hcs
    simp [getWinner, hid, hcs, winnerScan, winnerStep, hk]
  · intro hcs
    simp [getWinner, hid, hcs]

/-- Witness for C3: a reachable session with tallies `[5, 3]` under names
"A", "B"; its winner is `("A", false)`. -/
theorem C3_getWinner_scenarios_witness :
    0 < stE.sessionCount ∧
    (stE.votingSessions 0).candidates = [⟨"A", 5⟩, ⟨"B", 3⟩] ∧
    getWinner 0 stE = .ok ("A", false) :=
  ⟨by decide, by decide,
   (C3_getWinner_scenarios stE ⟨0, opsE, rfl⟩ 0 (by decide)).1 "A" "B" (by decide)⟩

/-- Claim C4: for every reachable existing session with at least one
candidate, a caller who has not voted and a valid candidate index, `vote`
succeeds exactly on the closed interval `[startTime, endTime]` and fails with
VotingNotActive strictly outside it. -/
theorem C4_vote_window (st : ContractState) (h : Reachable st)
    (caller sid cid now : Nat) (hex : sid < st.sessionCount)
    (_hcs : (st.votingSessions sid).candidates ≠ [])
    (hcid : cid < (st.votingSessions sid).candidates.length)
    (hnv : caller ∉ (st.votingSessions sid).hasVoted) :
    ((st.votingSessions sid).startTime ≤ now ∧
        now ≤ (st.votingSessions sid).endTime →
      ∃ st', vote caller sid cid now st = .ok st') ∧
    (now < (st.votingSessions sid).startTime ∨
        (st.votingSessions sid).endTime < now →
      vote caller sid cid now st = .error .votingNotActive) := by
  obtain ⟨-, h2, -⟩ := reachable_inv st h
  have hid := h2 sid hex
  constructor
  · intro hw
    refine ⟨st.setSession sid
      { st.votingSessions sid with
        hasVoted := caller :: (st.votingSessions sid).hasVoted,
        candidates := incAt (st.votingSessions sid).candidates cid }, ?_⟩
    unfold vote
    rw [if_neg (not_not_intro hw), if_neg (not_not_intro hid), if_neg hnv,
      if_neg (not_not_intro hcid)]
  · intro hout
    unfold vote
    rw [if_pos (show ¬ ((st.votingSessions sid).startTime ≤ now ∧
      now ≤ (st.votingSessions sid).endTime) by omega)]

/-- Witness for C4, both directions: at `now = 15` inside the window
`[10, 20]` the vote succeeds; the error direction is exercised at `now = 25`
through the same theorem applied at 25. -/
theorem C4_vote_window_witness :
    (∃ st', vote 1 0 0 15 stB = .ok st') ∧
    vote 1 0 0 25 stB = .error .votingNotActive :=
  ⟨(C4_vote_window stB ⟨0, opsB, rfl⟩ 1 0 0 15 (by decide) (by decide)
      (by decide) (by decide)).1 (by decide),
   (C4_vote_window stB ⟨0, opsB, rfl⟩ 1 0 0 25 (by decide) (by decide)
      (by decide) (by decide)).2 (by decide)⟩

/-- Claim C7 counterexample: on the freshly deployed contract session 1 does
not exist, yet `vote(1, 0)` at time 5 reverts in the
`onlyDuringVotingPeriod` modifier — which Solidity runs before
`sessionExists` — so the reported error is VotingNotActive, not NotFound. -/
theorem C7_counterexample :
    (initialState 0).sessionCount ≤ 1 ∧
    vote 1 1 0 5 (initialState 0) = .error .votingNotActive ∧
    VError.votingNotActive ≠ VError.notFound :=
  ⟨by decide, rfl, by decide⟩

/-- Claim C7 as amended: `vote` on an absent session always fails, but the
error kind depends on the time and the session id, because the phantom slot
has `startTime = endTime = 0` and the time check runs first: VotingNotActive
whenever `now ≠ 0`; NotFound only when `now = 0` and `sessionId ≠ 0`; and
InvalidCandidate when `now = 0` and `sessionId = 0` (the phantom slot 0
passes the existence check and has no candidates). -/
theorem C7_vote_absent_amended (st : ContractState) (h : Reachable st)
    (sid caller cid now : Nat) (habs : st.sessionCount ≤ sid) :
    (now ≠ 0 → vote caller sid cid now st = .error .votingNotActive) ∧
    (now = 0 → sid ≠ 0 → vote caller sid cid now st = .error .notFound) ∧
    (now = 0 → sid = 0 → vote caller sid cid now st = .error .invalidCandidate) := by
  obtain ⟨h1, -, -⟩ := reachable_inv st h
  have hdef := h1 sid habs
  refine ⟨?_, ?_, ?_⟩
  · intro hn
    unfold vote
    rw [hdef, if_pos (show ¬ (defaultSession.startTime ≤ now ∧
      now ≤ defaultSession.endTime) by simp [defaultSession]; omega)]
  · intro hz hs
    subst hz
    unfold vote
    rw [hdef]
    rw [if_neg (show ¬ ¬ (defaultSession.startTime ≤ 0 ∧
      0 ≤ defaultSession.endTime) by simp [defaultSession])]
    rw [if_pos (show defaultSession.id ≠ sid from fun hh => hs (by
      simpa [defaultSession] using hh.symm))]
  · intro hz hs
    subst hz
    subst hs
    unfold vote
    rw [hdef]
    rw [if_neg (show ¬ ¬ (defaultSession.startTime ≤ 0 ∧
      0 ≤ defaultSession.endTime) by simp [defaultSession])]
    rw [if_neg (show ¬ defaultSession.id ≠ 0 by simp [defaultSession])]
    rw [if_neg (show ¬ caller ∈ defaultSession.hasVoted by
      simp [defaultSession])]
    rw [if_pos (show ¬ cid < defaultSession.candidates.length by
      simp [defaultSession])]

/-- Witness for C7 as amended, at the deployed contract with absent session 1
and time 5. -/
theorem C7_vote_absent_amended_witness :
    ((5 : Nat) ≠ 0 → vote 2 1 0 5 (initialState 0) = .error .votingNotActive) ∧
    ((5 : Nat) = 0 → (1 : Nat) ≠ 0 →
      vote 2 1 0 5 (initialState 0) = .error .notFound) ∧
    ((5 : Nat) = 0 → (1 : Nat) = 0 →
      vote 2 1 0 5 (initialState 0) = .error .invalidCandidate) :=
  C7_vote_absent_amended (initialState 0) ⟨0, [], rfl⟩ 1 2 0 5 (by decide)

/-- Claim C5 counterexample: identity 1 votes successfully at time 15; its
second vote attempt at time 25 (after `endTime = 20`) fails with
VotingNotActive — the time-window modifier runs before the `hasVoted` check —
not with AlreadyVoted as the claim states. -/
theorem C5_counterexample :
    vote 1 0 0 15 stB = .ok stC ∧
    vote 1 0 0 25 stC = .error .votingNotActive ∧
    VError.votingNotActive ≠ VError.alreadyVoted :=
  ⟨rfl, rfl, by decide⟩

/-- Claim C5 as amended: after a successful vote by an identity in a session,
every later vote call by the same identity in that session fails and leaves
the state unchanged; the error is AlreadyVoted whenever the call passes the
time-window check (otherwise the time check fails first with
VotingNotActive). -/
theorem C5_second_vote_amended (st st₁ : ContractState) (c sid cid t : Nat)
    (h₁ : vote c sid cid t st = .ok st₁) (ops : List Op) (cid' t' : Nat)
    (hw : ((run ops st₁).votingSessions sid).startTime ≤ t' ∧
          t' ≤ ((run ops st₁).votingSessions sid).endTime) :
    vote c sid cid' t' (run ops st₁) = .error .alreadyVoted ∧
    run (ops ++ [Op.vote c sid cid' t']) st₁ = run ops st₁ := by
  have hfacts : (st₁.votingSessions sid).id = sid ∧
      c ∈ (st₁.votingSessions sid).hasVoted := by
    unfold vote at h₁
    split at h₁
    · exact Except.noConfusion h₁
    split at h₁
    · exact Except.noConfusion h₁
    split at h₁
    · exact Except.noConfusion h₁
    split at h₁
    · exact Except.noConfusion h₁
    rename_i hwin hid hnv hcid
    have hid' := not_not.mp hid
    injection h₁ with h₁
    subst h₁
    dsimp only [ContractState.setSession]
    rw [if_pos rfl]
    exact ⟨hid', List.mem_cons_self c _⟩
  obtain ⟨hid1, hc1⟩ := hfacts
  obtain ⟨hid2, hc2⟩ := run_keepsVoter ops st₁ sid c hid1 hc1
  have herr : vote c sid cid' t' (run ops st₁) = .error .alreadyVoted := by
    unfold vote
    rw [if_neg (not_not_intro hw), if_neg (not_not_intro hid2), if_pos hc2]
  refine ⟨herr, ?_⟩
  rw [run_append]
  show runStep (run ops st₁) (Op.vote c sid cid' t') = run ops st₁
  unfold runStep
  rw [show exec (Op.vote c sid cid' t') (run ops st₁) =
    Except.error VError.alreadyVoted from herr]

/-- Witness for C5 as amended: identity 1 voted at 15; with no intervening
calls, a second attempt at 16 (inside the window) fails AlreadyVoted. -/
theorem C5_second_vote_amended_witness :
    vote 1 0 0 16 stC = .error .alreadyVoted ∧
    run ([] ++ [Op.vote 1 0 0 16]) stC = run [] stC :=
  C5_second_vote_amended stB stC 1 0 0 15 rfl [] 0 16 (by decide)

/-- Claim C6 counterexample: in `stB` the session is still active
(`isActive = true`) and `now = 30` is past `endTime = 20`, yet `addCandidate`
fails with VotingAlreadyOpen (the `now >= startTime` check), not with
SessionEnded as the claim states for "after endTime". -/
theorem C6_counterexample :
    (stB.votingSessions 0).isActive = true ∧
    (stB.votingSessions 0).endTime < 30 ∧
    addCandidate 0 0 "B" 30 stB = .error .votingAlreadyOpen ∧
    VError.votingAlreadyOpen ≠ VError.sessionEnded :=
  ⟨rfl, by decide, rfl, by decide⟩

/-- Claim C6 as amended: `addCandidate` on an existing session succeeds only
while `now < startTime` with the caller equal to the creator; it fails with
SessionEnded when the session is archived (`isActive = false`), and once
`now ≥ startTime` with `isActive` still true it fails with VotingAlreadyOpen
(in particular after `endTime`, an unarchived session yields
VotingAlreadyOpen, not SessionEnded). -/
theorem C6_addCandidate_amended (st : ContractState) (sid : Nat) :
    (∀ caller name now st',
        addCandidate caller sid name now st = .ok st' →
        now < (st.votingSessions sid).startTime ∧
        caller = (st.votingSessions sid).creator) ∧
    (∀ caller name now,
        (st.votingSessions sid).id = sid →
        caller = (st.votingSessions sid).creator →
        (st.votingSessions sid).isActive = false →
        addCandidate caller sid name now st = .error .sessionEnded) ∧
    (∀ caller name now,
        (st.votingSessions sid).id = sid →
        caller = (st.votingSessions sid).creator →
        (st.votingSessions sid).isActive = true →
        (st.votingSessions sid).startTime ≤ now →
        addCandidate caller sid name now st = .error .votingAlreadyOpen) := by
  refine ⟨?_, ?_, ?_⟩
  · intro caller name now st' hok
    unfold addCandidate at hok
    split at hok
    · exact Except.noConfusion hok
    split at hok
    · exact Except.noConfusion hok
    split at hok
    · exact Except.noConfusion hok
    split at hok
    · exact Except.noConfusion hok
    rename_i hid hcr hact hnow
    exact ⟨not_not.mp hnow, not_not.mp hcr⟩
  · intro caller name now hid hcr hact
    unfold addCandidate
    rw [if_neg (not_not_intro hid), if_neg (not_not_intro hcr),
      if_pos (show ¬ (st.votingSessions sid).isActive = true by simp [hact])]
  · intro caller name now hid hcr hact hnow
    unfold addCandidate
    rw [if_neg (not_not_intro hid), if_neg (not_not_intro hcr),
      if_neg (not_not_intro hact),
      if_pos (show ¬ now < (st.votingSessions sid).startTime by omega)]

/-- Witness for C6 as amended: with `isActive` still true at `now = 30`
(past `endTime`) the error is VotingAlreadyOpen; on the archived state the
error is SessionEnded. -/
theorem C6_addCandidate_amended_witness :
    addCandidate 0 0 "B" 30 stB = .error .votingAlreadyOpen ∧
    addCandidate 0 0 "B" 5 stD = .error .sessionEnded :=
  ⟨(C6_addCandidate_amended stB 0).2.2 0 "B" 30 (by decide) (by decide)
      (by decide) (by decide),
   (C6_addCandidate_amended stD 0).2.1 0 "B" 5 (by decide) (by decide)
      (by decide)⟩

/-- Restoring a slot to its own current value is the identity. -/
theorem setSession_self (st : ContractState) (i : Nat) :
    st.setSession i (st.votingSessions i) = st := by
  cases st with
  | mk o n f =>
    unfold ContractState.setSession
    congr 1
    funext k
    by_cases hk : k = i
    · rw [if_pos hk, hk]
    · rw [if_neg hk]

/-- Setting `isActive := false` on a session that already has it false is the
identity. -/
theorem update_isActive_self (v : VotingSession) (hv : v.isActive = false) :
    { v with isActive := false } = v := by
  cases v
  simp_all

/-- Claim C8: archiving an already-archived session (`isActive = false`) after
its `endTime` succeeds and returns the state completely unchanged. -/
theorem C8_archive_idempotent (st : ContractState) (h : Reachable st)
    (caller sid now : Nat) (hex : sid < st.sessionCount)
    (harch : (st.votingSessions sid).isActive = false)
    (hnow : (st.votingSessions sid).endTime < now) :
    archiveSession caller sid now st = .ok st := by
  obtain ⟨-, h2, -⟩ := reachable_inv st h
  have hid := h2 sid hex
  unfold archiveSession
  rw [if_neg (not_not_intro hid),
    if_neg (show ¬ ¬ now > (st.votingSessions sid).endTime by omega)]
  rw [update_isActive_self (st.votingSessions sid) harch,
    setSession_self st sid]

/-- Witness for C8: `stD` is archived at 21; archiving again at 40 returns
exactly `stD`. -/
theorem C8_archive_idempotent_witness :
    archiveSession 7 0 40 stD = .ok stD :=
  C8_archive_idempotent stD ⟨0, opsD, rfl⟩ 7 0 40 (by decide) (by decide)
    (by decide)

/-- Claim C10: each mutating call touches only its target slot — every other
session and `sessionCount` are unchanged by `addCandidate`, `vote` and
`archiveSession` — and `createVotingSession` leaves all previously created
sessions unchanged while incrementing `sessionCount` by exactly 1. -/
theorem C10_frame (st : ContractState) :
    (∀ caller sid name now st',
        addCandidate caller sid name now st = .ok st' →
        st'.sessionCount = st.sessionCount ∧
        ∀ j, j ≠ sid → st'.votingSessions j = st.votingSessions j) ∧
    (∀ caller sid cid now st',
        vote caller sid cid now st = .ok st' →
        st'.sessionCount = st.sessionCount ∧
        ∀ j, j ≠ sid → st'.votingSessions j = st.votingSessions j) ∧
    (∀ caller sid now st',
        archiveSession caller sid now st = .ok st' →
        st'.sessionCount = st.sessionCount ∧
        ∀ j, j ≠ sid → st'.votingSessions j = st.votingSessions j) ∧
    (∀ caller title a b st',
        createVotingSession caller title a b st = .ok st' →
        st'.sessionCount = st.sessionCount + 1 ∧
        ∀ j, j < st.sessionCount → st'.votingSessions j = st.votingSessions j) := by
  refine ⟨?_, ?_, ?_, ?_⟩
  · intro caller sid name now st' hok
    unfold addCandidate at hok
    split at hok
    · exact Except.noConfusion hok
    split at hok
    · exact Except.noConfusion hok
    split at hok
    · exact Except.noConfusion hok
    split at hok
    · exact Except.noConfusion hok
    injection hok with hok
    subst hok
    refine ⟨rfl, ?_⟩
    intro j hj
    dsimp only [ContractState.setSession]
    rw [if_neg hj]
  · intro caller sid cid now st' hok
    unfold vote at hok
    split at hok
    · exact Except.noConfusion hok
    split at hok
    · exact Except.noConfusion hok
    split at hok
    · exact Except.noConfusion hok
    split at hok
    · exact Except.noConfusion hok
    injection hok with hok
    subst hok
    refine ⟨rfl, ?_⟩
    intro j hj
    dsimp only [ContractState.setSession]
    rw [if_neg hj]
  · intro caller sid now st' hok
    unfold archiveSession at hok
    split at hok
    · exact Except.noConfusion hok
    split at hok
    · exact Except.noConfusion hok
    injection hok with hok
    subst hok
    refine ⟨rfl, ?_⟩
    intro j hj
    dsimp only [ContractState.setSession]
    rw [if_neg hj]
  · intro caller title a b st' hok
    unfold createVotingSession at hok
    split at hok
    · exact Except.noConfusion hok
    split at hok
    · exact Except.noConfusion hok
    injection hok with hok
    subst hok
    refine ⟨rfl, ?_⟩
    intro j hj
    dsimp only
    rw [if_neg (show ¬ j = st.sessionCount by omega)]

/-- Witness for C10, on the create conjunct at the deployed contract. -/
theorem C10_frame_witness :
    stA.sessionCount = (initialState 0).sessionCount + 1 ∧
    ∀ j, j < (initialState 0).sessionCount →
      stA.votingSessions j = (initialState 0).votingSessions j :=
  (C10_frame (initialState 0)).2.2.2 0 "T" 10 20 stA rfl

/-- Claim C9: for every existing session whose roster is exactly one candidate
with zero votes, `getWinner` succeeds with `("", false)`: the provisional
winner name is never set (0 votes never exceeds the running maximum of 0), the
zero count ties with the initial maximum exactly once, so no tie is reported
and the empty default name is returned. -/
theorem C9_single_zero_candidate (st : ContractState) (h : Reachable st)
    (sid : Nat) (hex : sid < st.sessionCount) (nm : String)
    (hcs : (st.votingSessions sid).candidates = [⟨nm, 0⟩]) :
    getWinner sid st = .ok ("", false) := by
  obtain ⟨-, h2, -⟩ := reachable_inv st h
  have hid := h2 sid hex
  simp [getWinner, hid, hcs, winnerScan, winnerStep]

/-- Witness for C9: the session of `stB` has the single candidate "A" with no
votes, and `getWinner` returns `("", false)` there. -/
theorem C9_single_zero_candidate_witness :
    0 < stB.sessionCount ∧ getWinner 0 stB = .ok ("", false) :=
  ⟨by decide,
   C9_single_zero_candidate stB ⟨0, opsB, rfl⟩ 0 (by decide) "A" (by decide)⟩

end VotingDapp
